import Mathlib

/-!
A shallow embedding of `src/engraving/rw/scorereader.cpp` (the MuseScore
score-file loader): `ScoreReader::loadMscz`, `ScoreReader::read` and
`ScoreReader::doRead`, together with theorems about the version-acceptance
policy, reader dispatch, flag handling, excerpt creation and the side-file
effects.

External collaborators that are not part of this translation unit (the XML
tokenizer, the per-version element readers `Read114`/`Read206`/`Read302`/
`Read400`, the package reader `MscReader`, the style hook and the image
store) are modelled abstractly: the main score stream is carried already
tokenized as the list of its top-level elements, the legacy readers are
arbitrary state transformers returning an error code, and the body of a
current-generation file is carried as the list of its top-level children
together with the outcome the element-model reader would report for each
`Score` child.
-/

namespace ScoreRW

/-- Raw bytes of one package sub-stream (`ByteArray` in the source). -/
abbrev Bytes := List Nat

/-- The error taxonomy exposed to the caller (`Err` in the source, converted
to `mu::Ret` by `make_ret`); `NoError` is the success value.
`FileOpenError` carries the package path, `FileCorrupted` carries the
tokenizer's diagnostic text, matching the payloads the source attaches. -/
inductive Err where
  | NoError
  | FileOpenError (path : String)
  | FileTooNew
  | FileTooOld
  | FileOld300Format
  | FileCorrupted (msg : String)
  | FileCriticallyCorrupted
  | FileBadFormat
  deriving DecidableEq

/-- The four version-specific readers `ScoreReader::read` can delegate to:
`Read114::read114`, `Read206::read206`, `Read302::read302`, and the
current-generation body reader `ScoreReader::doRead`. -/
inductive Reader where
  | r114
  | r206
  | r302
  | r400
  deriving DecidableEq

/-- An `Excerpt` record as far as this translation unit observes it: the
display name assigned by `ex->setName(excerptName)` and the source→destination
track mapping copied by `ex->setTracksMapping(xml.context()->tracks())`. -/
structure Excerpt where
  name : String
  tracksMapping : List (Nat × Nat)
  deriving DecidableEq

/-- The observable state of a `MasterScore` as mutated by this translation
unit.  `styleReads` and `chordListReads` record the data replayed into the
style and chord-list objects by `style().read(&buf)` and
`chordList()->read(&buf)` (the objects themselves are external);
`chordListUsable` records whether a usable chord list exists (the guarantee
`checkChordList` establishes); `defaultStyleApplied` records whether the
style hook's `setupDefaultStyle` baseline has been applied. -/
structure ScoreState where
  mscVersion : Int
  mscoreVersion : String
  mscoreRevision : Int
  excerptsChanged : Bool
  autosaveDirty : Bool
  chordListUsable : Bool
  defaultStyleApplied : Bool
  styleReads : List Bytes
  chordListReads : List Bytes
  excerpts : List Excerpt
  hasAudio : Bool
  audioBytes : Option Bytes
  deriving DecidableEq

/-- Digit-sequence parser used to model `String::toInt`: fold decimal digits
into an accumulator, failing on any non-digit character. -/
def parseDigitsAux : List Char → Nat → Option Nat
  | [], acc => some acc
  | c :: cs, acc =>
      if '0' ≤ c ∧ c ≤ '9' then parseDigitsAux cs (acc * 10 + (c.toNat - '0'.toNat))
      else none

/-- Parse a non-empty all-digit character sequence as a natural number. -/
def parseDigits (cs : List Char) : Option Nat :=
  match cs with
  | [] => none
  | _ => parseDigitsAux cs 0

/-- An optional sign followed by decimal digits; any other shape is invalid. -/
def toIntChars : List Char → Int
  | [] => 0
  | '-' :: cs => (match parseDigits cs with | some n => -(n : Int) | none => 0)
  | '+' :: cs => (match parseDigits cs with | some n => (n : Int) | none => 0)
  | cs => (match parseDigits cs with | some n => (n : Int) | none => 0)

/-- `String::toInt` of the source's string class (an external collaborator):
parse the whole string as a decimal integer, yielding 0 when the string is
not a valid integer. -/
def toIntQ (s : String) : Int := toIntChars s.data

/-- Splitting engine for `version.split('.')`. -/
def splitDotAux : List Char → List Char → List (List Char)
  | [], acc => [acc.reverse]
  | c :: cs, acc =>
      if c = '.' then acc.reverse :: splitDotAux cs []
      else splitDotAux cs (c :: acc)

/-- `version.split('.')` of the source's string class (an external
collaborator): split on the dot character, keeping empty parts. -/
def splitDot (s : String) : List String := (splitDotAux s.data []).map List.asString

/-- Modelled from the spec: `MSCVERSION`, the highest format version this
implementation understands (the current generation, 400).  The constant is
defined outside the sources under `src/`. -/
def MSCVERSION : Int := 400

/-- Modelled from the spec: `Score::checkChordList` (defined outside the
sources under `src/`) makes sure a usable chord list exists, loading the
built-in default chord list otherwise. -/
def checkChordList (s : ScoreState) : ScoreState := { s with chordListUsable := true }

/-- One top-level child of the `museScore` root as consumed by
`ScoreReader::doRead`.  The element-model reader `Read400::readScore400` is
an external collaborator, so a `Score` child carries the outcome it would
report: `ok` is the boolean it returns and `customError` is whether the
stream is left in its `XmlStreamReader::CustomError` state. -/
inductive DocElem where
  | programVersion (s : String)
  | programRevision (n : Int)
  | scoreTag (ok : Bool) (customError : Bool)
  | revision
  | unknownTag (nm : String)
  deriving DecidableEq

/-- `ScoreReader::doRead`: iterate the top-level children of the root
element; store `programVersion` and `programRevision` on the score; hand a
`Score` child to the element-model reader and reclassify its failure
(`FileCriticallyCorrupted` when the stream reports its custom-error state,
`FileBadFormat` otherwise); skip `Revision`; any other child leaves the
state and the result untouched. -/
def doRead (score : ScoreState) (body : List DocElem) : Err × ScoreState :=
  match body with
  | [] => (.NoError, score)
  | .programVersion s :: rest => doRead { score with mscoreVersion := s } rest
  | .programRevision n :: rest => doRead { score with mscoreRevision := n } rest
  | .scoreTag ok ce :: rest =>
      if ok then doRead score rest
      else if ce then (.FileCriticallyCorrupted, score)
      else (.FileBadFormat, score)
  | .revision :: rest => doRead score rest
  | .unknownTag _ :: rest => doRead score rest

/-- One top-level element of the main score stream as scanned by the
`readNextStartElement` loop of `ScoreReader::read`: the element name, its
`version` attribute, and (for a `museScore` root) its children as consumed
by `doRead`. -/
structure RootElem where
  name : String
  version : String
  body : List DocElem
  deriving DecidableEq

/-- A legacy version-specific reader (`Read114::read114`,
`Read206::read206`, `Read302::read302`): an external collaborator that
mutates the score and returns an error code. -/
abbrev LegacyReader := ScoreState → Err × ScoreState

/-- The observable outcome of `ScoreReader::read`: the returned result, the
score state, and — as a trace of the call sequence — whether
`styleHook->setupDefaultStyle()` ran, which reader was delegated to, and
the score state that reader received as input. -/
structure ReadResult where
  ret : Err
  score : ScoreState
  styleSetupCalled : Bool
  reader : Option Reader
  readerInput : Option ScoreState
  deriving DecidableEq

/-- The version-acceptance policy of `ScoreReader::read` (lines 160-170):
unless `ignoreVersionError` is set, reject versions above `MSCVERSION` as
`FileTooNew`, below 114 as `FileTooOld`, and exactly 300 as
`FileOld300Format`, in that order. -/
def versionVerdict (v : Int) (ignoreVersionError : Bool) : Option Err :=
  if ignoreVersionError then none
  else if MSCVERSION < v then some .FileTooNew
  else if v < 114 then some .FileTooOld
  else if v = 300 then some .FileOld300Format
  else none

/-- The tail of `ScoreReader::read` after the chosen reader returned `err`
with score state `s`: `setExcerptsChanged(false)`, `setAutosaveDirty(false)`
and `return make_ret(err)`.  `rd` and `inp` record which reader ran and the
state it was handed. -/
def finishRead (err : Err) (s : ScoreState) (styleSetup : Bool) (rd : Reader)
    (inp : ScoreState) : ReadResult :=
  { ret := err
    score := { s with excerptsChanged := false, autosaveDirty := false }
    styleSetupCalled := styleSetup
    reader := some rd
    readerInput := some inp }

/-- Lines 177-194 of the source, reached after the acceptance checks pass
(or are suppressed): conditionally invoke `styleHook->setupDefaultStyle()`,
then dispatch to exactly one version-specific reader; the current-generation
branch first runs `score->checkChordList()`. -/
def dispatchAt (score : ScoreState) (body : List DocElem) (v : Int)
    (r114 r206 r302 : LegacyReader) (testMode styleHook : Bool) : ReadResult :=
  let styleSetup := styleHook && (decide (v < 400) || testMode)
  let score2 := if styleSetup then { score with mscVersion := v, defaultStyleApplied := true }
                else { score with mscVersion := v }
  if v ≤ 114 then
    finishRead (r114 score2).1 (r114 score2).2 styleSetup .r114 score2
  else if v ≤ 207 then
    finishRead (r206 score2).1 (r206 score2).2 styleSetup .r206 score2
  else if v < 400 ∨ testMode = true then
    finishRead (r302 score2).1 (r302 score2).2 styleSetup .r302 score2
  else
    finishRead (doRead (checkChordList score2) body).1
      (doRead (checkChordList score2) body).2 styleSetup .r400 (checkChordList score2)

/-- The body of `ScoreReader::read` for the `museScore` root element: parse
the `version` attribute by splitting on `.` and indexing parts 0 and 1 (the
out-of-bounds access on a version string with no minor component is
modelled as `none`), set the score's version, apply the acceptance policy,
conditionally run the style hook, and dispatch to exactly one reader. -/
def readRoot (score : ScoreState) (el : RootElem) (r114 r206 r302 : LegacyReader)
    (testMode styleHook ignoreVersionError : Bool) : Option ReadResult :=
  match (splitDot el.version)[0]?, (splitDot el.version)[1]? with
  | some p0, some p1 =>
    let v : Int := toIntQ p0 * 100 + toIntQ p1
    match versionVerdict v ignoreVersionError with
    | some err =>
        some { ret := err, score := { score with mscVersion := v },
               styleSetupCalled := false, reader := none, readerInput := none }
    | none =>
        some (dispatchAt score el.body v r114 r206 r302 testMode styleHook)
  | _, _ => none

/-- `ScoreReader::read`: scan the top-level elements; the first `museScore`
element is handled by `readRoot` and ends the scan; any other element is
skipped by `e.unknown()`; if the stream runs out, return `FileCorrupted`
carrying `e.errorString()`. -/
def read (score : ScoreState) (elems : List RootElem) (errString : String)
    (r114 r206 r302 : LegacyReader) (testMode styleHook ignoreVersionError : Bool) :
    Option ReadResult :=
  match elems with
  | [] =>
      some { ret := .FileCorrupted errString, score := score,
             styleSetupCalled := false, reader := none, readerInput := none }
  | el :: rest =>
      if el.name = "museScore" then
        readRoot score el r114 r206 r302 testMode styleHook ignoreVersionError
      else
        read score rest errString r114 r206 r302 testMode styleHook ignoreVersionError

/-- The version-bucket selection rule of the dispatch in `ScoreReader::read`
(lines 181-194), as a standalone mapping from version to reader. -/
def bucketOf (v : Int) (testMode : Bool) : Reader :=
  if v ≤ 114 then .r114
  else if v ≤ 207 then .r206
  else if v < 400 ∨ testMode = true then .r302
  else .r400

/-- The process-wide image store, keyed by image name. -/
abbrev ImageStore := List (String × Bytes)

/-- Modelled from the spec: `imageStore.add(name, bytes)` (defined outside
the sources under `src/`) makes `name` resolve to `bytes`; for a given name
the last writer wins. -/
def imageStoreAdd (st : ImageStore) (nm : String) (b : Bytes) : ImageStore :=
  (nm, b) :: st.filter (fun p => p.1 ≠ nm)

/-- The opened package (`MscReader`): named sub-streams addressed by logical
role.  The main score stream is carried already tokenized as the list of
its top-level elements together with the tokenizer's diagnostic string. -/
structure MscPackage where
  isOpened : Bool
  filePath : String
  styleFile : Bytes
  chordListFile : Bytes
  imageNames : List String
  imageFile : String → Bytes
  scoreElems : List RootElem
  scoreErrString : String
  excerptNames : List String
  excerptFile : String → Bytes
  excerptStyleFile : String → Bytes
  audioFile : Bytes

/-- Step "Read style" of `loadMscz`: if the style sub-stream is non-empty,
replay it into the master's style object. -/
def styleStep (m : ScoreState) (pkg : MscPackage) : ScoreState :=
  if pkg.styleFile.isEmpty then m
  else { m with styleReads := m.styleReads ++ [pkg.styleFile] }

/-- Step "Read ChordList" of `loadMscz`: if the chord-list sub-stream is
non-empty, replay it into the master's chord-list object (which then holds
a usable chord list). -/
def chordListStep (m : ScoreState) (pkg : MscPackage) : ScoreState :=
  if pkg.chordListFile.isEmpty then m
  else { m with chordListReads := m.chordListReads ++ [pkg.chordListFile],
                chordListUsable := true }

/-- Step "Read images" of `loadMscz`: unless `MScore::noImages` is set,
register every image of the package in the process-wide image store. -/
def imagesStep (st : ImageStore) (pkg : MscPackage) (noImages : Bool) : ImageStore :=
  if noImages then st
  else pkg.imageNames.foldl (fun s nm => imageStoreAdd s nm (pkg.imageFile nm)) st

/-- The `Excerpt` record built for one declared excerpt name: the name set
by `ex->setName(excerptName)` and the track mapping produced by the
400-series reader's parse context on the excerpt's content sub-stream
(`Read400::read400` is external; `tracksOf` maps its input data to the
resulting `ctx.tracks()`). -/
def excerptEntry (pkg : MscPackage) (tracksOf : Bytes → List (Nat × Nat))
    (nm : String) : Excerpt :=
  { name := nm, tracksMapping := tracksOf (pkg.excerptFile nm) }

/-- Step "Read excerpts" of `loadMscz`: only when the master's version is at
least 400, iterate the package's declared excerpt names and append one
`Excerpt` per name to the master. -/
def excerptsStep (m : ScoreState) (pkg : MscPackage)
    (tracksOf : Bytes → List (Nat × Nat)) : ScoreState :=
  if 400 ≤ m.mscVersion then
    pkg.excerptNames.foldl
      (fun s nm => { s with excerpts := s.excerpts ++ [excerptEntry pkg tracksOf nm] }) m
  else m

/-- Step "Read audio" of `loadMscz`: if the master declares an audio
payload, attach the audio sub-stream's bytes. -/
def audioStep (m : ScoreState) (pkg : MscPackage) : ScoreState :=
  if m.hasAudio then { m with audioBytes := some pkg.audioFile } else m

/-- The observable outcome of `ScoreReader::loadMscz`: the returned result,
the master's state, the process-wide image store, and — as a trace — which
reader (if any) the score dispatch delegated to. -/
structure LoadResult where
  ret : Err
  master : ScoreState
  imageStore : ImageStore
  dispatched : Option Reader
  deriving DecidableEq

/-- `ScoreReader::loadMscz`: check the open precondition, read the side
files (style, chord list, images), dispatch the main score stream via
`read` (capturing its result), then process excerpts and audio, and return
the captured result.  The style hook passed to `read` is always supplied
(`compat::ReadStyleHook styleHook(...)`).  A `none` outcome models the
crash of the version-attribute parse inside `read`. -/
def loadMscz (master : ScoreState) (store : ImageStore) (pkg : MscPackage)
    (r114 r206 r302 : LegacyReader) (tracksOf : Bytes → List (Nat × Nat))
    (testMode noImages ignoreVersionError : Bool) : Option LoadResult :=
  if pkg.isOpened = false then
    some { ret := .FileOpenError pkg.filePath, master := master,
           imageStore := store, dispatched := none }
  else
    let m2 := chordListStep (styleStep master pkg) pkg
    let store1 := imagesStep store pkg noImages
    match read m2 pkg.scoreElems pkg.scoreErrString r114 r206 r302
        testMode true ignoreVersionError with
    | none => none
    | some rr =>
        some { ret := rr.ret
               master := audioStep (excerptsStep rr.score pkg tracksOf) pkg
               imageStore := store1
               dispatched := rr.reader }

/-! ### Projections used in theorem statements -/

/-- The default-style flag of the state a delegated reader received, when a
reader was delegated to. -/
def readerInputStyleApplied (rr : ReadResult) : Option Bool :=
  rr.readerInput.map ScoreState.defaultStyleApplied

/-- The excerpts owned by the master after a load. -/
def masterExcerptsOf (r : LoadResult) : List Excerpt := r.master.excerpts

/-- The master's declared version after a load. -/
def masterVersionOf (r : LoadResult) : Int := r.master.mscVersion

/-- Result and both dirty flags of a completed load. -/
def flagsView (r : LoadResult) : Err × Bool × Bool :=
  (r.ret, r.master.excerptsChanged, r.master.autosaveDirty)

/-! ### Concrete fixtures -/

/-- A fresh master document state. -/
def score0 : ScoreState :=
  { mscVersion := 0, mscoreVersion := "", mscoreRevision := 0,
    excerptsChanged := false, autosaveDirty := false, chordListUsable := false,
    defaultStyleApplied := false, styleReads := [], chordListReads := [],
    excerpts := [], hasAudio := false, audioBytes := none }

/-- A master whose dirty flags are both set. -/
def scoreDirty : ScoreState := { score0 with excerptsChanged := true, autosaveDirty := true }

/-- A legacy reader that succeeds without touching the score. -/
def idLegacy : LegacyReader := fun s => (Err.NoError, s)

/-- A 400-series excerpt parse producing an empty track mapping. -/
def noTracks : Bytes → List (Nat × Nat) := fun _ => []

/-- A `museScore` root declaring version 5.0 (newer than `MSCVERSION`). -/
def musNew : RootElem := { name := "museScore", version := "5.0", body := [] }

/-- A `museScore` root declaring version 1.0 (older than 114). -/
def musOld : RootElem := { name := "museScore", version := "1.0", body := [] }

/-- A `museScore` root declaring the unsupported intermediate version 3.0. -/
def mus300 : RootElem := { name := "museScore", version := "3.0", body := [] }

/-- A `museScore` root declaring the current-generation version 4.0. -/
def musCur : RootElem := { name := "museScore", version := "4.0", body := [] }

/-- A `museScore` root declaring the legacy version 2.6. -/
def mus206 : RootElem := { name := "museScore", version := "2.6", body := [] }

/-- An opened package whose score declares version 5.0 and which exposes two
excerpts. -/
def pkgNew : MscPackage :=
  { isOpened := true, filePath := "score.mscz", styleFile := [], chordListFile := [],
    imageNames := [], imageFile := fun _ => [], scoreElems := [musNew],
    scoreErrString := "", excerptNames := ["Flute", "Oboe"], excerptFile := fun _ => [],
    excerptStyleFile := fun _ => [], audioFile := [] }

/-- An opened package whose score declares version 4.0 and which exposes one
excerpt. -/
def pkgCur : MscPackage := { pkgNew with scoreElems := [musCur], excerptNames := ["Flute"] }

/-- An opened package whose score declares version 2.6 and which exposes one
excerpt-shaped sub-stream. -/
def pkg206 : MscPackage := { pkgNew with scoreElems := [mus206], excerptNames := ["Flute"] }

/-- An opened package with non-empty style, chord-list and image
sub-streams whose score declares the too-new version 5.0. -/
def pkgSide : MscPackage :=
  { isOpened := true, filePath := "side.mscz", styleFile := [1], chordListFile := [2],
    imageNames := ["img"], imageFile := fun _ => [3], scoreElems := [musNew],
    scoreErrString := "", excerptNames := [], excerptFile := fun _ => [],
    excerptStyleFile := fun _ => [], audioFile := [] }

/-- The outcome of dispatching `pkgCur`'s score stream from `score0`. -/
def rrCur : ReadResult :=
  { ret := .NoError,
    score := { mscVersion := 400, mscoreVersion := "", mscoreRevision := 0,
               excerptsChanged := false, autosaveDirty := false, chordListUsable := true,
               defaultStyleApplied := false, styleReads := [], chordListReads := [],
               excerpts := [], hasAudio := false, audioBytes := none },
    styleSetupCalled := false, reader := some .r400,
    readerInput := some (checkChordList { score0 with mscVersion := 400 }) }

/-- The outcome of dispatching `pkg206`'s score stream from `score0`. -/
def rr206 : ReadResult :=
  { ret := .NoError,
    score := { score0 with mscVersion := 206, defaultStyleApplied := true },
    styleSetupCalled := true, reader := some .r206,
    readerInput := some { score0 with mscVersion := 206, defaultStyleApplied := true } }

/-- The outcome of loading `pkgCur` into a fresh master. -/
def rCur : LoadResult :=
  { ret := .NoError,
    master := { mscVersion := 400, mscoreVersion := "", mscoreRevision := 0,
                excerptsChanged := false, autosaveDirty := false, chordListUsable := true,
                defaultStyleApplied := false, styleReads := [], chordListReads := [],
                excerpts := [{ name := "Flute", tracksMapping := [] }],
                hasAudio := false, audioBytes := none },
    imageStore := [], dispatched := some .r400 }

/-- The outcome of loading `pkgSide` into a fresh master. -/
def rSide : LoadResult :=
  { ret := .FileTooNew,
    master := { mscVersion := 500, mscoreVersion := "", mscoreRevision := 0,
                excerptsChanged := false, autosaveDirty := false, chordListUsable := true,
                defaultStyleApplied := false, styleReads := [[1]], chordListReads := [[2]],
                excerpts := [], hasAudio := false, audioBytes := none },
    imageStore := [("img", [3])],
    dispatched := none }

/-! ### Helper lemmas -/

theorem read_cons_museScore (score : ScoreState) (el : RootElem) (rest : List RootElem)
    (errString : String) (r114 r206 r302 : LegacyReader) (tm sh ive : Bool)
    (hname : el.name = "museScore") :
    read score (el :: rest) errString r114 r206 r302 tm sh ive =
      readRoot score el r114 r206 r302 tm sh ive := by
  simp [read, hname]

theorem readRoot_of_split (score : ScoreState) (el : RootElem) (r114 r206 r302 : LegacyReader)
    (tm sh ive : Bool) (p0 p1 : String) (ps : List String)
    (hsplit : splitDot el.version = p0 :: p1 :: ps) :
    readRoot score el r114 r206 r302 tm sh ive =
      match versionVerdict (toIntQ p0 * 100 + toIntQ p1) ive with
      | some err =>
          some { ret := err, score := { score with mscVersion := toIntQ p0 * 100 + toIntQ p1 },
                 styleSetupCalled := false, reader := none, readerInput := none }
      | none =>
          some (dispatchAt score el.body (toIntQ p0 * 100 + toIntQ p1) r114 r206 r302 tm sh) := by
  rw [readRoot, hsplit]
  simp

theorem dispatchAt_reader (score : ScoreState) (body : List DocElem) (v : Int)
    (r114 r206 r302 : LegacyReader) (tm sh : Bool) :
    (dispatchAt score body v r114 r206 r302 tm sh).reader = some (bucketOf v tm) := by
  rw [dispatchAt, bucketOf]
  split_ifs <;> rfl

theorem dispatchAt_styleSetupCalled (score : ScoreState) (body : List DocElem) (v : Int)
    (r114 r206 r302 : LegacyReader) (tm sh : Bool) :
    (dispatchAt score body v r114 r206 r302 tm sh).styleSetupCalled =
      (sh && (decide (v < 400) || tm)) := by
  rw [dispatchAt]
  split_ifs <;> rfl

theorem dispatchAt_flags (score : ScoreState) (body : List DocElem) (v : Int)
    (r114 r206 r302 : LegacyReader) (tm sh : Bool) :
    (dispatchAt score body v r114 r206 r302 tm sh).score.excerptsChanged = false ∧
    (dispatchAt score body v r114 r206 r302 tm sh).score.autosaveDirty = false := by
  rw [dispatchAt]
  split_ifs <;> exact ⟨rfl, rfl⟩

theorem bucketOf_r400 (v : Int) (tm : Bool) (h : bucketOf v tm = .r400) :
    ¬v < 400 ∧ tm = false := by
  rw [bucketOf] at h
  by_cases h1 : v ≤ 114
  · rw [if_pos h1] at h
    cases h
  · rw [if_neg h1] at h
    by_cases h2 : v ≤ 207
    · rw [if_pos h2] at h
      cases h
    · rw [if_neg h2] at h
      by_cases h3 : v < 400 ∨ tm = true
      · rw [if_pos h3] at h
        cases h
      · refine ⟨fun hc => h3 (Or.inl hc), ?_⟩
        cases tm with
        | false => rfl
        | true => exact absurd (Or.inr rfl) h3

theorem dispatchAt_styleApplied (score : ScoreState) (body : List DocElem) (v : Int)
    (r114 r206 r302 : LegacyReader) (tm sh : Bool)
    (hflag : score.defaultStyleApplied = false) :
    readerInputStyleApplied (dispatchAt score body v r114 r206 r302 tm sh) =
      some (sh && (decide (v < 400) || tm)) := by
  rw [dispatchAt]
  by_cases hs : (sh && (decide (v < 400) || tm)) = true
  · simp only [hs, if_true]
    split_ifs <;> simp [readerInputStyleApplied, finishRead, checkChordList, hs]
  · rw [Bool.not_eq_true] at hs
    simp only [hs, Bool.false_eq_true, if_false]
    split_ifs <;> simp [readerInputStyleApplied, finishRead, checkChordList, hs, hflag]

theorem dispatchAt_r400_input (score : ScoreState) (body : List DocElem) (v : Int)
    (r114 r206 r302 : LegacyReader) (tm sh : Bool)
    (hb : bucketOf v tm = .r400) :
    (dispatchAt score body v r114 r206 r302 tm sh).readerInput =
      some (checkChordList { score with mscVersion := v }) := by
  obtain ⟨hv, htm⟩ := bucketOf_r400 v tm hb
  have h1 : ¬v ≤ 114 := by omega
  have h2 : ¬v ≤ 207 := by omega
  have h3 : ¬(v < 400 ∨ tm = true) := by
    rintro (hc | hc)
    · exact hv hc
    · rw [htm] at hc; cases hc
  have hd : decide (v < 400) = false := decide_eq_false hv
  have hss : (sh && (decide (v < 400) || tm)) = false := by
    rw [hd, htm]
    simp
  rw [dispatchAt]
  rw [hss]
  rw [if_neg (by simp : ¬false = true), if_neg h1, if_neg h2, if_neg h3]
  rfl

theorem doRead_frame (s : ScoreState) (body : List DocElem) :
    (doRead s body).2.styleReads = s.styleReads ∧
    (doRead s body).2.chordListReads = s.chordListReads ∧
    (doRead s body).2.excerpts = s.excerpts ∧
    (doRead s body).2.chordListUsable = s.chordListUsable ∧
    (doRead s body).2.defaultStyleApplied = s.defaultStyleApplied := by
  induction body generalizing s with
  | nil => exact ⟨rfl, rfl, rfl, rfl, rfl⟩
  | cons el rest ih =>
    cases el with
    | programVersion s' => exact ih _
    | programRevision n => exact ih _
    | scoreTag ok ce =>
        cases ok with
        | true => exact ih _
        | false =>
            cases ce <;> exact ⟨rfl, rfl, rfl, rfl, rfl⟩
    | revision => exact ih _
    | unknownTag nm => exact ih _

theorem readRoot_cases (score : ScoreState) (el : RootElem) (r114 r206 r302 : LegacyReader)
    (tm sh ive : Bool) (rr : ReadResult)
    (h : readRoot score el r114 r206 r302 tm sh ive = some rr) :
    (∃ v err, versionVerdict v ive = some err ∧
        rr = { ret := err, score := { score with mscVersion := v },
               styleSetupCalled := false, reader := none, readerInput := none }) ∨
    (∃ v, versionVerdict v ive = none ∧
        rr = dispatchAt score el.body v r114 r206 r302 tm sh) := by
  rw [readRoot] at h
  split at h
  · rename_i q0 q1 e0 e1
    dsimp only at h
    split at h
    · rename_i err heq
      left
      exact ⟨toIntQ q0 * 100 + toIntQ q1, err, heq, (Option.some_inj.mp h).symm⟩
    · rename_i heq
      right
      exact ⟨toIntQ q0 * 100 + toIntQ q1, heq, (Option.some_inj.mp h).symm⟩
  · cases h

theorem read_cases (score : ScoreState) (elems : List RootElem) (errString : String)
    (r114 r206 r302 : LegacyReader) (tm sh ive : Bool) (rr : ReadResult)
    (h : read score elems errString r114 r206 r302 tm sh ive = some rr) :
    rr = { ret := .FileCorrupted errString, score := score, styleSetupCalled := false,
           reader := none, readerInput := none } ∨
    (∃ v err, versionVerdict v ive = some err ∧
        rr = { ret := err, score := { score with mscVersion := v },
               styleSetupCalled := false, reader := none, readerInput := none }) ∨
    (∃ v body, versionVerdict v ive = none ∧
        rr = dispatchAt score body v r114 r206 r302 tm sh) := by
  induction elems with
  | nil =>
      left
      rw [read] at h
      exact (Option.some_inj.mp h).symm
  | cons el rest ih =>
      rw [read] at h
      by_cases hn : el.name = "museScore"
      · rw [if_pos hn] at h
        rcases readRoot_cases score el r114 r206 r302 tm sh ive rr h with ⟨v, err, hv, hrr⟩ | ⟨v, hv, hrr⟩
        · exact Or.inr (Or.inl ⟨v, err, hv, hrr⟩)
        · exact Or.inr (Or.inr ⟨v, el.body, hv, hrr⟩)
      · rw [if_neg hn] at h
        exact ih h

theorem excerptsFold_eq (pkg : MscPackage) (tracksOf : Bytes → List (Nat × Nat))
    (names : List String) (m : ScoreState) :
    names.foldl
        (fun s nm => { s with excerpts := s.excerpts ++ [excerptEntry pkg tracksOf nm] }) m =
      { m with excerpts := m.excerpts ++ names.map (excerptEntry pkg tracksOf) } := by
  induction names generalizing m with
  | nil => simp
  | cons n ns ih =>
      rw [List.foldl_cons, ih]
      simp

theorem excerptsStep_eq (m : ScoreState) (pkg : MscPackage)
    (tracksOf : Bytes → List (Nat × Nat)) :
    excerptsStep m pkg tracksOf =
      if 400 ≤ m.mscVersion then
        { m with excerpts := m.excerpts ++ pkg.excerptNames.map (excerptEntry pkg tracksOf) }
      else m := by
  rw [excerptsStep]
  split_ifs
  · exact excerptsFold_eq pkg tracksOf pkg.excerptNames m
  · rfl

theorem loadMscz_opened (master : ScoreState) (store : ImageStore) (pkg : MscPackage)
    (r114 r206 r302 : LegacyReader) (tracksOf : Bytes → List (Nat × Nat))
    (tm ni ive : Bool) (hopen : pkg.isOpened = true) :
    loadMscz master store pkg r114 r206 r302 tracksOf tm ni ive =
      match read (chordListStep (styleStep master pkg) pkg) pkg.scoreElems pkg.scoreErrString
          r114 r206 r302 tm true ive with
      | none => none
      | some rr =>
          some { ret := rr.ret,
                 master := audioStep (excerptsStep rr.score pkg tracksOf) pkg,
                 imageStore := imagesStep store pkg ni,
                 dispatched := rr.reader } := by
  rw [loadMscz, hopen]
  rfl

theorem versionVerdict_tooNew (v : Int) (h : MSCVERSION < v) :
    versionVerdict v false = some .FileTooNew := by
  rw [versionVerdict, if_neg (by simp), if_pos h]

theorem versionVerdict_tooOld (v : Int) (h1 : ¬MSCVERSION < v) (h2 : v < 114) :
    versionVerdict v false = some .FileTooOld := by
  rw [versionVerdict, if_neg (by simp), if_neg h1, if_pos h2]

theorem versionVerdict_old300 (v : Int) (h1 : ¬MSCVERSION < v) (h2 : ¬v < 114) (h3 : v = 300) :
    versionVerdict v false = some .FileOld300Format := by
  rw [versionVerdict, if_neg (by simp), if_neg h1, if_neg h2, if_pos h3]

theorem versionVerdict_ignore (v : Int) : versionVerdict v true = none := by
  rw [versionVerdict, if_pos rfl]

/-- C1: with `ignoreVersionError` false, `read` enforces the acceptance
checks in order — a version above `MSCVERSION` yields `FileTooNew`,
otherwise a version below 114 yields `FileTooOld`, otherwise version 300
yields the distinct `FileOld300Format` — returning the error with no reader
invoked (the trace records no reader and no reader input); with
`ignoreVersionError` true all three checks are suppressed and the dispatch
proceeds under the same version-bucket rules (`bucketOf`). -/
theorem C1_version_acceptance (score : ScoreState) (el : RootElem) (rest : List RootElem)
    (errString : String) (r114 r206 r302 : LegacyReader) (tm sh : Bool)
    (p0 p1 : String) (ps : List String)
    (hname : el.name = "museScore")
    (hsplit : splitDot el.version = p0 :: p1 :: ps) :
    (MSCVERSION < toIntQ p0 * 100 + toIntQ p1 →
      read score (el :: rest) errString r114 r206 r302 tm sh false =
        some { ret := .FileTooNew,
               score := { score with mscVersion := toIntQ p0 * 100 + toIntQ p1 },
               styleSetupCalled := false, reader := none, readerInput := none }) ∧
    (¬MSCVERSION < toIntQ p0 * 100 + toIntQ p1 → toIntQ p0 * 100 + toIntQ p1 < 114 →
      read score (el :: rest) errString r114 r206 r302 tm sh false =
        some { ret := .FileTooOld,
               score := { score with mscVersion := toIntQ p0 * 100 + toIntQ p1 },
               styleSetupCalled := false, reader := none, readerInput := none }) ∧
    (¬MSCVERSION < toIntQ p0 * 100 + toIntQ p1 → ¬toIntQ p0 * 100 + toIntQ p1 < 114 →
      toIntQ p0 * 100 + toIntQ p1 = 300 →
      read score (el :: rest) errString r114 r206 r302 tm sh false =
        some { ret := .FileOld300Format,
               score := { score with mscVersion := toIntQ p0 * 100 + toIntQ p1 },
               styleSetupCalled := false, reader := none, readerInput := none }) ∧
    ((read score (el :: rest) errString r114 r206 r302 tm sh true).map ReadResult.reader =
      some (some (bucketOf (toIntQ p0 * 100 + toIntQ p1) tm))) := by
  have hread := read_cons_museScore score el rest errString r114 r206 r302 tm sh false hname
  have hread' := read_cons_museScore score el rest errString r114 r206 r302 tm sh true hname
  have hroot := readRoot_of_split score el r114 r206 r302 tm sh false p0 p1 ps hsplit
  have hroot' := readRoot_of_split score el r114 r206 r302 tm sh true p0 p1 ps hsplit
  refine ⟨?_, ?_, ?_, ?_⟩
  · intro hv
    rw [hread, hroot, versionVerdict_tooNew _ hv]
  · intro hv1 hv2
    rw [hread, hroot, versionVerdict_tooOld _ hv1 hv2]
  · intro hv1 hv2 hv3
    rw [hread, hroot, versionVerdict_old300 _ hv1 hv2 hv3]
  · rw [hread', hroot', versionVerdict_ignore]
    simp [dispatchAt_reader]

/-- C1 witness: concrete instances — version 5.0 is rejected as
`FileTooNew`, 1.0 as `FileTooOld`, 3.0 as the distinct `FileOld300Format`
(each with no reader invoked), and with `ignoreVersionError` set version
3.0 proceeds to the 302 bucket. -/
theorem C1_version_acceptance_witness :
    (read score0 [musNew] "" idLegacy idLegacy idLegacy false false false =
      some { ret := .FileTooNew, score := { score0 with mscVersion := 500 },
             styleSetupCalled := false, reader := none, readerInput := none }) ∧
    (read score0 [musOld] "" idLegacy idLegacy idLegacy false false false =
      some { ret := .FileTooOld, score := { score0 with mscVersion := 100 },
             styleSetupCalled := false, reader := none, readerInput := none }) ∧
    (read score0 [mus300] "" idLegacy idLegacy idLegacy false false false =
      some { ret := .FileOld300Format, score := { score0 with mscVersion := 300 },
             styleSetupCalled := false, reader := none, readerInput := none }) ∧
    ((read score0 [mus300] "" idLegacy idLegacy idLegacy false false true).map
        ReadResult.reader = some (some Reader.r302)) := by
  refine ⟨?_, ?_, ?_, ?_⟩
  · exact (C1_version_acceptance score0 musNew [] "" idLegacy idLegacy idLegacy false false
      "5" "0" [] rfl (by decide)).1 (by decide)
  · exact (C1_version_acceptance score0 musOld [] "" idLegacy idLegacy idLegacy false false
      "1" "0" [] rfl (by decide)).2.1 (by decide) (by decide)
  · exact (C1_version_acceptance score0 mus300 [] "" idLegacy idLegacy idLegacy false false
      "3" "0" [] rfl (by decide)).2.2.1 (by decide) (by decide) (by decide)
  · exact (C1_version_acceptance score0 mus300 [] "" idLegacy idLegacy idLegacy false false
      "3" "0" [] rfl (by decide)).2.2.2

/-- C2: for every version that passes (or bypasses) the acceptance checks,
`read` delegates to exactly one reader, selected by the first matching
bucket (`bucketOf`): version ≤ 114 the 114 reader, ≤ 207 the 206 reader,
< 400 or test mode the 302 reader, otherwise the current-generation reader;
in the last case the reader's input state first went through
`checkChordList`, so a usable chord list exists before the body is read. -/
theorem C2_reader_dispatch (score : ScoreState) (el : RootElem) (rest : List RootElem)
    (errString : String) (r114 r206 r302 : LegacyReader) (tm sh ive : Bool)
    (p0 p1 : String) (ps : List String)
    (hname : el.name = "museScore")
    (hsplit : splitDot el.version = p0 :: p1 :: ps)
    (hacc : versionVerdict (toIntQ p0 * 100 + toIntQ p1) ive = none) :
    ((read score (el :: rest) errString r114 r206 r302 tm sh ive).map ReadResult.reader =
      some (some (bucketOf (toIntQ p0 * 100 + toIntQ p1) tm))) ∧
    (bucketOf (toIntQ p0 * 100 + toIntQ p1) tm = .r400 →
      ((read score (el :: rest) errString r114 r206 r302 tm sh ive).map ReadResult.readerInput =
        some (some (checkChordList { score with mscVersion := toIntQ p0 * 100 + toIntQ p1 }))) ∧
      (checkChordList
        { score with mscVersion := toIntQ p0 * 100 + toIntQ p1 }).chordListUsable = true) := by
  have hread := read_cons_museScore score el rest errString r114 r206 r302 tm sh ive hname
  have hroot := readRoot_of_split score el r114 r206 r302 tm sh ive p0 p1 ps hsplit
  rw [hread, hroot, hacc]
  constructor
  · simp [dispatchAt_reader]
  · intro hb
    refine ⟨?_, rfl⟩
    simp [dispatchAt_r400_input score el.body (toIntQ p0 * 100 + toIntQ p1) r114 r206 r302
      tm sh hb]

/-- C2 witness: a version 4.0 stream dispatches to the current-generation
reader, whose input state already went through `checkChordList` and hence
has a usable chord list. -/
theorem C2_reader_dispatch_witness :
    ((read score0 [musCur] "" idLegacy idLegacy idLegacy false false false).map
        ReadResult.reader = some (some Reader.r400)) ∧
    ((read score0 [musCur] "" idLegacy idLegacy idLegacy false false false).map
        ReadResult.readerInput =
      some (some (checkChordList { score0 with mscVersion := 400 }))) ∧
    (checkChordList { score0 with mscVersion := 400 }).chordListUsable = true := by
  have h := C2_reader_dispatch score0 musCur [] "" idLegacy idLegacy idLegacy false false false
    "4" "0" [] rfl (by decide) (by decide)
  exact ⟨h.1, (h.2 (by decide)).1, (h.2 (by decide)).2⟩

/-- C8: the style hook's `setupDefaultStyle` is invoked if and only if the
parsed version is below 400 or the global test-mode switch is active (and a
hook was supplied), and it runs strictly before the version-specific reader
is delegated to: the state the chosen reader receives already carries the
default-style baseline exactly when the hook fired; at version ≥ 400
outside test mode no baseline injection occurs. -/
theorem C8_style_hook_timing (score : ScoreState) (el : RootElem) (rest : List RootElem)
    (errString : String) (r114 r206 r302 : LegacyReader) (tm sh ive : Bool)
    (p0 p1 : String) (ps : List String)
    (hname : el.name = "museScore")
    (hsplit : splitDot el.version = p0 :: p1 :: ps)
    (hflag : score.defaultStyleApplied = false)
    (hacc : versionVerdict (toIntQ p0 * 100 + toIntQ p1) ive = none) :
    ((read score (el :: rest) errString r114 r206 r302 tm sh ive).map
        ReadResult.styleSetupCalled =
      some (sh && (decide (toIntQ p0 * 100 + toIntQ p1 < 400) || tm))) ∧
    ((read score (el :: rest) errString r114 r206 r302 tm sh ive).map
        readerInputStyleApplied =
      some (some (sh && (decide (toIntQ p0 * 100 + toIntQ p1 < 400) || tm)))) := by
  have hread := read_cons_museScore score el rest errString r114 r206 r302 tm sh ive hname
  have hroot := readRoot_of_split score el r114 r206 r302 tm sh ive p0 p1 ps hsplit
  rw [hread, hroot, hacc]
  constructor
  · simp [dispatchAt_styleSetupCalled]
  · simp [dispatchAt_styleApplied score el.body (toIntQ p0 * 100 + toIntQ p1) r114 r206 r302
      tm sh hflag]

/-- C8 witness: with a hook supplied, a version 2.6 file gets the baseline
applied before its reader runs, and a version 4.0 file outside test mode
gets none. -/
theorem C8_style_hook_timing_witness :
    ((read score0 [mus206] "" idLegacy idLegacy idLegacy false true false).map
        ReadResult.styleSetupCalled = some true) ∧
    ((read score0 [mus206] "" idLegacy idLegacy idLegacy false true false).map
        readerInputStyleApplied = some (some true)) ∧
    ((read score0 [musCur] "" idLegacy idLegacy idLegacy false true false).map
        ReadResult.styleSetupCalled = some false) := by
  have h := C8_style_hook_timing score0 mus206 [] "" idLegacy idLegacy idLegacy false true false
    "2" "6" [] rfl rfl rfl (by decide)
  have h' := C8_style_hook_timing score0 musCur [] "" idLegacy idLegacy idLegacy false true false
    "4" "0" [] rfl rfl rfl (by decide)
  exact ⟨h.1, h.2, h'.1⟩

theorem styleStep_frame (m : ScoreState) (pkg : MscPackage) :
    (styleStep m pkg).excerptsChanged = m.excerptsChanged ∧
    (styleStep m pkg).autosaveDirty = m.autosaveDirty ∧
    (styleStep m pkg).excerpts = m.excerpts ∧
    (styleStep m pkg).mscVersion = m.mscVersion := by
  rw [styleStep]
  split_ifs <;> exact ⟨rfl, rfl, rfl, rfl⟩

theorem chordListStep_frame (m : ScoreState) (pkg : MscPackage) :
    (chordListStep m pkg).excerptsChanged = m.excerptsChanged ∧
    (chordListStep m pkg).autosaveDirty = m.autosaveDirty ∧
    (chordListStep m pkg).excerpts = m.excerpts ∧
    (chordListStep m pkg).mscVersion = m.mscVersion ∧
    (chordListStep m pkg).styleReads = m.styleReads := by
  rw [chordListStep]
  split_ifs <;> exact ⟨rfl, rfl, rfl, rfl, rfl⟩

theorem excerptsStep_frame (m : ScoreState) (pkg : MscPackage)
    (tracksOf : Bytes → List (Nat × Nat)) :
    (excerptsStep m pkg tracksOf).excerptsChanged = m.excerptsChanged ∧
    (excerptsStep m pkg tracksOf).autosaveDirty = m.autosaveDirty ∧
    (excerptsStep m pkg tracksOf).styleReads = m.styleReads ∧
    (excerptsStep m pkg tracksOf).chordListReads = m.chordListReads ∧
    (excerptsStep m pkg tracksOf).mscVersion = m.mscVersion := by
  rw [excerptsStep_eq]
  split_ifs <;> exact ⟨rfl, rfl, rfl, rfl, rfl⟩

theorem audioStep_frame (m : ScoreState) (pkg : MscPackage) :
    (audioStep m pkg).excerptsChanged = m.excerptsChanged ∧
    (audioStep m pkg).autosaveDirty = m.autosaveDirty ∧
    (audioStep m pkg).excerpts = m.excerpts ∧
    (audioStep m pkg).styleReads = m.styleReads ∧
    (audioStep m pkg).chordListReads = m.chordListReads ∧
    (audioStep m pkg).mscVersion = m.mscVersion := by
  rw [audioStep]
  split_ifs <;> exact ⟨rfl, rfl, rfl, rfl, rfl, rfl⟩

theorem read_flags (score : ScoreState) (elems : List RootElem) (errString : String)
    (r114 r206 r302 : LegacyReader) (tm sh ive : Bool) (rr : ReadResult)
    (h : read score elems errString r114 r206 r302 tm sh ive = some rr) :
    (rr.reader.isSome = true →
      rr.score.excerptsChanged = false ∧ rr.score.autosaveDirty = false) ∧
    (rr.reader = none →
      rr.score.excerptsChanged = score.excerptsChanged ∧
      rr.score.autosaveDirty = score.autosaveDirty) := by
  rcases read_cases score elems errString r114 r206 r302 tm sh ive rr h with
    hrr | ⟨v, err, hv, hrr⟩ | ⟨v, body, hv, hrr⟩
  · subst hrr
    exact ⟨fun hc => absurd hc Bool.false_ne_true, fun _ => ⟨rfl, rfl⟩⟩
  · subst hrr
    exact ⟨fun hc => absurd hc Bool.false_ne_true, fun _ => ⟨rfl, rfl⟩⟩
  · subst hrr
    refine ⟨fun _ => dispatchAt_flags score body v r114 r206 r302 tm sh, fun hc => ?_⟩
    rw [dispatchAt_reader] at hc
    cases hc

theorem dispatchAt_r400_sidefiles (score : ScoreState) (body : List DocElem) (v : Int)
    (r114 r206 r302 : LegacyReader) (tm sh : Bool)
    (hb : bucketOf v tm = .r400) :
    (dispatchAt score body v r114 r206 r302 tm sh).score.styleReads = score.styleReads ∧
    (dispatchAt score body v r114 r206 r302 tm sh).score.chordListReads =
      score.chordListReads := by
  obtain ⟨hv, htm⟩ := bucketOf_r400 v tm hb
  have h1 : ¬v ≤ 114 := by omega
  have h2 : ¬v ≤ 207 := by omega
  have h3 : ¬(v < 400 ∨ tm = true) := by
    rintro (hc | hc)
    · exact hv hc
    · rw [htm] at hc
      cases hc
  have hd : decide (v < 400) = false := decide_eq_false hv
  have hss : (sh && (decide (v < 400) || tm)) = false := by
    rw [hd, htm]
    simp
  rw [dispatchAt, hss]
  rw [if_neg (by simp : ¬false = true), if_neg h1, if_neg h2, if_neg h3]
  obtain ⟨hsr, hcr, -, -, -⟩ := doRead_frame (checkChordList { score with mscVersion := v }) body
  exact ⟨hsr, hcr⟩

theorem read_sidefiles_frame (score : ScoreState) (elems : List RootElem) (errString : String)
    (r114 r206 r302 : LegacyReader) (tm sh ive : Bool) (rr : ReadResult)
    (h : read score elems errString r114 r206 r302 tm sh ive = some rr)
    (hd : rr.reader = none ∨ rr.reader = some .r400) :
    rr.score.styleReads = score.styleReads ∧
    rr.score.chordListReads = score.chordListReads := by
  rcases read_cases score elems errString r114 r206 r302 tm sh ive rr h with
    hrr | ⟨v, err, hv, hrr⟩ | ⟨v, body, hv, hrr⟩
  · subst hrr
    exact ⟨rfl, rfl⟩
  · subst hrr
    exact ⟨rfl, rfl⟩
  · subst hrr
    have hb : bucketOf v tm = .r400 := by
      rcases hd with hd | hd
      · rw [dispatchAt_reader] at hd
        cases hd
      · rw [dispatchAt_reader] at hd
        exact Option.some_inj.mp hd
    exact dispatchAt_r400_sidefiles score body v r114 r206 r302 tm sh hb

theorem readRoot_isSome (score : ScoreState) (el : RootElem) (r114 r206 r302 : LegacyReader)
    (tm sh ive : Bool) (p0 p1 : String) (ps : List String)
    (hsplit : splitDot el.version = p0 :: p1 :: ps) :
    (readRoot score el r114 r206 r302 tm sh ive).isSome = true := by
  rw [readRoot_of_split score el r114 r206 r302 tm sh ive p0 p1 ps hsplit]
  rcases hv : versionVerdict (toIntQ p0 * 100 + toIntQ p1) ive with _ | err <;> simp [hv]

theorem read_total (score : ScoreState) (elems : List RootElem) (errString : String)
    (r114 r206 r302 : LegacyReader) (tm sh ive : Bool) :
    (∀ el ∈ elems, el.name = "museScore" → 2 ≤ (splitDot el.version).length) →
    (read score elems errString r114 r206 r302 tm sh ive).isSome = true := by
  induction elems with
  | nil =>
      intro _
      rfl
  | cons el rest ih =>
      intro hminor
      rw [read]
      by_cases hn : el.name = "museScore"
      · rw [if_pos hn]
        have hlen := hminor el (List.mem_cons_self el rest) hn
        rcases hsd : splitDot el.version with _ | ⟨p0, tl⟩
        · rw [hsd] at hlen
          simp at hlen
        · rcases htl : tl with _ | ⟨p1, ps⟩
          · rw [hsd, htl] at hlen
            simp at hlen
          · rw [htl] at hsd
            exact readRoot_isSome score el r114 r206 r302 tm sh ive p0 p1 ps hsd
      · rw [if_neg hn]
        exact ih (fun e he hne => hminor e (List.mem_cons_of_mem _ he) hne)

/-- C4: in `doRead`, a `Score` child whose element-model parse fails yields
`FileCriticallyCorrupted` when the stream is in its custom-error state and
`FileBadFormat` otherwise, with the iteration stopping there; a `Revision`
child is skipped without affecting the result; and an unrecognized child is
treated as unknown and skipped, never producing an error. -/
theorem C4_doRead_children (s : ScoreState) (rest : List DocElem) (ce : Bool) (nm : String) :
    doRead s (.scoreTag false ce :: rest) =
      ((if ce then Err.FileCriticallyCorrupted else Err.FileBadFormat), s) ∧
    doRead s (.revision :: rest) = doRead s rest ∧
    doRead s (.unknownTag nm :: rest) = doRead s rest := by
  refine ⟨?_, rfl, rfl⟩
  cases ce <;> rfl

/-- C6: the version-attribute parse of `read` indexes split parts 0 and 1
unguarded, so `read` is total when every `museScore` root's version
attribute splits into at least two parts, while the version attribute "4"
(no minor component) makes the part-1 access out of bounds — modelled as
the absent result `none` — instead of a clean format error. -/
theorem C6_version_split (score : ScoreState) (elems : List RootElem) (errString : String)
    (r114 r206 r302 : LegacyReader) (tm sh ive : Bool)
    (hminor : ∀ el ∈ elems, el.name = "museScore" → 2 ≤ (splitDot el.version).length) :
    ((read score elems errString r114 r206 r302 tm sh ive).isSome = true) ∧
    read score [{ name := "museScore", version := "4", body := [] }] errString
      r114 r206 r302 tm sh ive = none := by
  refine ⟨read_total score elems errString r114 r206 r302 tm sh ive hminor, ?_⟩
  rfl

/-- C6 witness: a stream whose root declares version 4.0 parses to a
result, while the lone version string "4" crashes the split-indexing. -/
theorem C6_version_split_witness :
    ((read score0 [musCur] "" idLegacy idLegacy idLegacy false false false).isSome = true) ∧
    read score0 [{ name := "museScore", version := "4", body := [] }] "" idLegacy idLegacy
      idLegacy false false false = none :=
  C6_version_split score0 [musCur] "" idLegacy idLegacy idLegacy false false false (by decide)

/-- C3 counterexample: the claim asserts the dirty flags are false after any
completed load including those reported `FileTooNew`; but loading a package
whose score declares version 5.0 into a master whose flags are set returns
`FileTooNew` with both flags still true, because the version-error paths of
`read` return before the flag-clearing lines run. -/
theorem C3_flags_counterexample :
    (loadMscz scoreDirty [] pkgNew idLegacy idLegacy idLegacy noTracks false false
        false).map flagsView = some (Err.FileTooNew, true, true) := by
  decide

/-- C3 amended: after a completed load in which the dispatcher reached a
version-specific reader, the master's excerpts-changed and autosave-dirty
flags are both false; loads that return before any reader is dispatched
(version rejection, missing root, open-precondition failure) leave both
flags exactly as they were. -/
theorem C3_flags_amended (master : ScoreState) (store : ImageStore) (pkg : MscPackage)
    (r114 r206 r302 : LegacyReader) (tracksOf : Bytes → List (Nat × Nat))
    (tm ni ive : Bool) (r : LoadResult)
    (hload : loadMscz master store pkg r114 r206 r302 tracksOf tm ni ive = some r) :
    (r.dispatched.isSome = true →
      r.master.excerptsChanged = false ∧ r.master.autosaveDirty = false) ∧
    (r.dispatched = none →
      r.master.excerptsChanged = master.excerptsChanged ∧
      r.master.autosaveDirty = master.autosaveDirty) := by
  by_cases hopen : pkg.isOpened = false
  · rw [loadMscz, if_pos hopen] at hload
    have hr := (Option.some_inj.mp hload).symm
    subst hr
    exact ⟨fun hc => absurd hc Bool.false_ne_true, fun _ => ⟨rfl, rfl⟩⟩
  · have hopen' : pkg.isOpened = true := by
      cases hpkg : pkg.isOpened
      · exact absurd hpkg hopen
      · rfl
    rw [loadMscz_opened master store pkg r114 r206 r302 tracksOf tm ni ive hopen'] at hload
    rcases hread : read (chordListStep (styleStep master pkg) pkg) pkg.scoreElems
        pkg.scoreErrString r114 r206 r302 tm true ive with _ | rr
    · rw [hread] at hload
      cases hload
    · rw [hread] at hload
      have hr := (Option.some_inj.mp hload).symm
      subst hr
      have hflags := read_flags _ _ _ _ _ _ _ _ _ rr hread
      obtain ⟨ha1, ha2, -, -, -, -⟩ := audioStep_frame (excerptsStep rr.score pkg tracksOf) pkg
      obtain ⟨he1, he2, -, -, -⟩ := excerptsStep_frame rr.score pkg tracksOf
      obtain ⟨hc1, hc2, -, -, -⟩ := chordListStep_frame (styleStep master pkg) pkg
      obtain ⟨hs1, hs2, -, -⟩ := styleStep_frame master pkg
      constructor
      · intro hd
        obtain ⟨f1, f2⟩ := hflags.1 hd
        exact ⟨by rw [ha1, he1, f1], by rw [ha2, he2, f2]⟩
      · intro hd
        obtain ⟨f1, f2⟩ := hflags.2 hd
        exact ⟨by rw [ha1, he1, f1, hc1, hs1], by rw [ha2, he2, f2, hc2, hs2]⟩

/-- C3 amended witness: loading the version 4.0 package dispatches the
current-generation reader and ends with both flags false. -/
theorem C3_flags_amended_witness :
    (rCur.dispatched.isSome = true →
      rCur.master.excerptsChanged = false ∧ rCur.master.autosaveDirty = false) ∧
    (rCur.dispatched = none →
      rCur.master.excerptsChanged = score0.excerptsChanged ∧
      rCur.master.autosaveDirty = score0.autosaveDirty) :=
  C3_flags_amended score0 [] pkgCur idLegacy idLegacy idLegacy noTracks false false false
    rCur (by decide)

/-- C5: for every opened package, the result `loadMscz` returns is exactly
the result captured from dispatching the main score stream; once the
dispatch returns, excerpt and audio processing proceed unconditionally on
that captured state, and contribute nothing to the returned result. -/
theorem C5_result_is_dispatch (master : ScoreState) (store : ImageStore) (pkg : MscPackage)
    (r114 r206 r302 : LegacyReader) (tracksOf : Bytes → List (Nat × Nat))
    (tm ni ive : Bool)
    (hopen : pkg.isOpened = true) :
    ((loadMscz master store pkg r114 r206 r302 tracksOf tm ni ive).map LoadResult.ret =
      (read (chordListStep (styleStep master pkg) pkg) pkg.scoreElems pkg.scoreErrString
        r114 r206 r302 tm true ive).map ReadResult.ret) ∧
    (∀ rr, read (chordListStep (styleStep master pkg) pkg) pkg.scoreElems pkg.scoreErrString
        r114 r206 r302 tm true ive = some rr →
      loadMscz master store pkg r114 r206 r302 tracksOf tm ni ive =
        some { ret := rr.ret, master := audioStep (excerptsStep rr.score pkg tracksOf) pkg,
               imageStore := imagesStep store pkg ni, dispatched := rr.reader }) := by
  rw [loadMscz_opened master store pkg r114 r206 r302 tracksOf tm ni ive hopen]
  constructor
  · rcases hread : read (chordListStep (styleStep master pkg) pkg) pkg.scoreElems
        pkg.scoreErrString r114 r206 r302 tm true ive with _ | rr <;> rfl
  · intro rr hrr
    rw [hrr]

/-- C5 witness: for the version 4.0 package the loader's result projection
equals the dispatch result projection, and the full load outcome is the
dispatch outcome followed by excerpt and audio processing. -/
theorem C5_result_is_dispatch_witness :
    ((loadMscz score0 [] pkgCur idLegacy idLegacy idLegacy noTracks false false false).map
        LoadResult.ret =
      (read (chordListStep (styleStep score0 pkgCur) pkgCur) pkgCur.scoreElems
        pkgCur.scoreErrString idLegacy idLegacy idLegacy false true false).map
        ReadResult.ret) ∧
    (loadMscz score0 [] pkgCur idLegacy idLegacy idLegacy noTracks false false false =
      some { ret := rrCur.ret,
             master := audioStep (excerptsStep rrCur.score pkgCur noTracks) pkgCur,
             imageStore := imagesStep [] pkgCur false, dispatched := rrCur.reader }) := by
  have h := C5_result_is_dispatch score0 [] pkgCur idLegacy idLegacy idLegacy noTracks
    false false false rfl
  exact ⟨h.1, h.2 rrCur (by decide)⟩

/-- C7: when the dispatched master declares version ≥ 400, `loadMscz`
appends one `Excerpt` per declared excerpt name, in order, each carrying
the declared name and the track mapping produced by the 400-series parse of
that excerpt's content (so a master with no prior excerpts ends up with
exactly the declared list); when the master declares version < 400 no
`Excerpt` is ever created, regardless of the excerpt sub-streams the
package exposes. -/
theorem C7_excerpt_records (master : ScoreState) (store : ImageStore) (pkg : MscPackage)
    (r114 r206 r302 : LegacyReader) (tracksOf : Bytes → List (Nat × Nat))
    (tm ni ive : Bool) (rr : ReadResult)
    (hopen : pkg.isOpened = true)
    (hread : read (chordListStep (styleStep master pkg) pkg) pkg.scoreElems
        pkg.scoreErrString r114 r206 r302 tm true ive = some rr) :
    (400 ≤ rr.score.mscVersion → rr.score.excerpts = [] →
      (loadMscz master store pkg r114 r206 r302 tracksOf tm ni ive).map masterExcerptsOf =
        some (pkg.excerptNames.map (excerptEntry pkg tracksOf))) ∧
    (rr.score.mscVersion < 400 →
      (loadMscz master store pkg r114 r206 r302 tracksOf tm ni ive).map masterExcerptsOf =
        some rr.score.excerpts) ∧
    (∀ nm, (excerptEntry pkg tracksOf nm).name = nm ∧
      (excerptEntry pkg tracksOf nm).tracksMapping = tracksOf (pkg.excerptFile nm)) := by
  rw [loadMscz_opened master store pkg r114 r206 r302 tracksOf tm ni ive hopen, hread]
  obtain ⟨-, -, hax, -, -, -⟩ := audioStep_frame (excerptsStep rr.score pkg tracksOf) pkg
  refine ⟨?_, ?_, fun nm => ⟨rfl, rfl⟩⟩
  · intro hv he
    show some (masterExcerptsOf _) = _
    rw [masterExcerptsOf, hax, excerptsStep_eq, if_pos hv]
    rw [show ({ rr.score with excerpts :=
        rr.score.excerpts ++ pkg.excerptNames.map (excerptEntry pkg tracksOf) } :
        ScoreState).excerpts =
      rr.score.excerpts ++ pkg.excerptNames.map (excerptEntry pkg tracksOf) from rfl]
    rw [he]
    rfl
  · intro hv
    show some (masterExcerptsOf _) = _
    rw [masterExcerptsOf, hax, excerptsStep_eq, if_neg (by omega)]

/-- C7 witness: loading the version 4.0 package yields exactly the declared
excerpt, loading the version 2.6 package yields none although it exposes an
excerpt sub-stream, and the built record carries the declared name. -/
theorem C7_excerpt_records_witness :
    ((loadMscz score0 [] pkgCur idLegacy idLegacy idLegacy noTracks false false false).map
        masterExcerptsOf = some [{ name := "Flute", tracksMapping := [] }]) ∧
    ((loadMscz score0 [] pkg206 idLegacy idLegacy idLegacy noTracks false false false).map
        masterExcerptsOf = some []) ∧
    ((excerptEntry pkgCur noTracks "Flute").name = "Flute") := by
  have h := C7_excerpt_records score0 [] pkgCur idLegacy idLegacy idLegacy noTracks
    false false false rrCur rfl (by decide)
  have h' := C7_excerpt_records score0 [] pkg206 idLegacy idLegacy idLegacy noTracks
    false false false rr206 rfl (by decide)
  exact ⟨h.1 (by decide) rfl, h'.2.1 (by decide), (h.2.2 "Flute").1⟩

theorem read_tooNew (score : ScoreState) (el : RootElem) (rest : List RootElem)
    (errString : String) (r114 r206 r302 : LegacyReader) (tm sh : Bool)
    (p0 p1 : String) (ps : List String)
    (hname : el.name = "museScore")
    (hsplit : splitDot el.version = p0 :: p1 :: ps)
    (hnew : MSCVERSION < toIntQ p0 * 100 + toIntQ p1) :
    read score (el :: rest) errString r114 r206 r302 tm sh false =
      some { ret := .FileTooNew,
             score := { score with mscVersion := toIntQ p0 * 100 + toIntQ p1 },
             styleSetupCalled := false, reader := none, readerInput := none } := by
  rw [read_cons_museScore score el rest errString r114 r206 r302 tm sh false hname,
    readRoot_of_split score el r114 r206 r302 tm sh false p0 p1 ps hsplit,
    versionVerdict_tooNew _ hnew]

theorem loadMscz_of_read (master : ScoreState) (store : ImageStore) (pkg : MscPackage)
    (r114 r206 r302 : LegacyReader) (tracksOf : Bytes → List (Nat × Nat))
    (tm ni ive : Bool) (rr : ReadResult)
    (hopen : pkg.isOpened = true)
    (hread : read (chordListStep (styleStep master pkg) pkg) pkg.scoreElems
        pkg.scoreErrString r114 r206 r302 tm true ive = some rr) :
    loadMscz master store pkg r114 r206 r302 tracksOf tm ni ive =
      some { ret := rr.ret, master := audioStep (excerptsStep rr.score pkg tracksOf) pkg,
             imageStore := imagesStep store pkg ni, dispatched := rr.reader } := by
  rw [loadMscz_opened master store pkg r114 r206 r302 tracksOf tm ni ive hopen, hread]

/-- C9: when `read` rejects a score stream as `FileTooNew`, the master's
declared version was already permanently set from the file before the
rejection; consequently a package whose score declares a version above
`MSCVERSION` (hence ≥ 400) still has its excerpts enumerated, parsed with
the 400-series reader and appended to the master by `loadMscz`, even though
the load is reported as failed. -/
theorem C9_version_persists_on_reject (master : ScoreState) (store : ImageStore)
    (pkg : MscPackage) (r114 r206 r302 : LegacyReader)
    (tracksOf : Bytes → List (Nat × Nat)) (tm ni : Bool) (el : RootElem)
    (p0 p1 : String) (ps : List String)
    (hopen : pkg.isOpened = true)
    (helems : pkg.scoreElems = [el])
    (hname : el.name = "museScore")
    (hsplit : splitDot el.version = p0 :: p1 :: ps)
    (hnew : MSCVERSION < toIntQ p0 * 100 + toIntQ p1) :
    ((loadMscz master store pkg r114 r206 r302 tracksOf tm ni false).map LoadResult.ret =
      some Err.FileTooNew) ∧
    ((loadMscz master store pkg r114 r206 r302 tracksOf tm ni false).map masterVersionOf =
      some (toIntQ p0 * 100 + toIntQ p1)) ∧
    ((loadMscz master store pkg r114 r206 r302 tracksOf tm ni false).map masterExcerptsOf =
      some (master.excerpts ++ pkg.excerptNames.map (excerptEntry pkg tracksOf))) := by
  have hnew' : (400 : Int) < toIntQ p0 * 100 + toIntQ p1 := hnew
  have hread : read (chordListStep (styleStep master pkg) pkg) pkg.scoreElems
      pkg.scoreErrString r114 r206 r302 tm true false =
      some { ret := .FileTooNew,
             score := { chordListStep (styleStep master pkg) pkg with
                        mscVersion := toIntQ p0 * 100 + toIntQ p1 },
             styleSetupCalled := false, reader := none, readerInput := none } := by
    rw [helems]
    exact read_tooNew _ el [] pkg.scoreErrString r114 r206 r302 tm true p0 p1 ps hname
      hsplit hnew
  rw [loadMscz_of_read master store pkg r114 r206 r302 tracksOf tm ni false _ hopen hread]
  obtain ⟨-, -, hax, -, -, hav⟩ := audioStep_frame
    (excerptsStep { chordListStep (styleStep master pkg) pkg with
      mscVersion := toIntQ p0 * 100 + toIntQ p1 } pkg tracksOf) pkg
  obtain ⟨-, -, -, -, hev⟩ := excerptsStep_frame
    { chordListStep (styleStep master pkg) pkg with
      mscVersion := toIntQ p0 * 100 + toIntQ p1 } pkg tracksOf
  obtain ⟨-, -, hce, -, -⟩ := chordListStep_frame (styleStep master pkg) pkg
  obtain ⟨-, -, hse, -⟩ := styleStep_frame master pkg
  have hcond : (400 : Int) ≤ ({ chordListStep (styleStep master pkg) pkg with
      mscVersion := toIntQ p0 * 100 + toIntQ p1 } : ScoreState).mscVersion := by
    show (400 : Int) ≤ toIntQ p0 * 100 + toIntQ p1
    omega
  refine ⟨rfl, ?_, ?_⟩
  · simp only [Option.map_some', masterVersionOf]
    rw [hav, hev]
  · simp only [Option.map_some', masterExcerptsOf]
    rw [hax, excerptsStep_eq, if_pos hcond]
    show some ((chordListStep (styleStep master pkg) pkg).excerpts ++
      pkg.excerptNames.map (excerptEntry pkg tracksOf)) = _
    rw [hce, hse]

/-- C9 witness: loading the version 5.0 package reports `FileTooNew`, yet
the master ends with version 500 and both declared excerpts appended. -/
theorem C9_version_persists_on_reject_witness :
    ((loadMscz score0 [] pkgNew idLegacy idLegacy idLegacy noTracks false false false).map
        LoadResult.ret = some Err.FileTooNew) ∧
    ((loadMscz score0 [] pkgNew idLegacy idLegacy idLegacy noTracks false false false).map
        masterVersionOf = some 500) ∧
    ((loadMscz score0 [] pkgNew idLegacy idLegacy idLegacy noTracks false false false).map
        masterExcerptsOf =
      some (score0.excerpts ++ pkgNew.excerptNames.map (excerptEntry pkgNew noTracks))) :=
  C9_version_persists_on_reject score0 [] pkgNew idLegacy idLegacy idLegacy noTracks
    false false musNew "5" "0" [] rfl rfl rfl rfl (by decide)

/-- C10: for every package passing the open-precondition check, the style
replay, the chord-list replay and the image-store registration happen
before the main score is dispatched and before any version check, so their
effects persist in the returned state even when the result is a version
error (no reader dispatched) or a format error of the current-generation
reader. -/
theorem C10_side_files_precede (master : ScoreState) (store : ImageStore) (pkg : MscPackage)
    (r114 r206 r302 : LegacyReader) (tracksOf : Bytes → List (Nat × Nat))
    (tm ni ive : Bool) (r : LoadResult)
    (hopen : pkg.isOpened = true)
    (hload : loadMscz master store pkg r114 r206 r302 tracksOf tm ni ive = some r) :
    r.imageStore = imagesStep store pkg ni ∧
    ((r.dispatched = none ∨ r.dispatched = some .r400) →
      r.master.styleReads = (styleStep master pkg).styleReads ∧
      r.master.chordListReads = (chordListStep (styleStep master pkg) pkg).chordListReads) := by
  rw [loadMscz_opened master store pkg r114 r206 r302 tracksOf tm ni ive hopen] at hload
  rcases hread : read (chordListStep (styleStep master pkg) pkg) pkg.scoreElems
      pkg.scoreErrString r114 r206 r302 tm true ive with _ | rr
  · rw [hread] at hload
    cases hload
  · rw [hread] at hload
    have hr := (Option.some_inj.mp hload).symm
    subst hr
    obtain ⟨-, -, -, hasr, hacl, -⟩ := audioStep_frame (excerptsStep rr.score pkg tracksOf) pkg
    obtain ⟨-, -, hesr, hecl, -⟩ := excerptsStep_frame rr.score pkg tracksOf
    obtain ⟨-, -, -, -, hcsr⟩ := chordListStep_frame (styleStep master pkg) pkg
    refine ⟨rfl, fun hd => ?_⟩
    have hframe := read_sidefiles_frame (chordListStep (styleStep master pkg) pkg)
      pkg.scoreElems pkg.scoreErrString r114 r206 r302 tm true ive rr hread hd
    constructor
    · show (audioStep (excerptsStep rr.score pkg tracksOf) pkg).styleReads = _
      rw [hasr, hesr, hframe.1, hcsr]
    · show (audioStep (excerptsStep rr.score pkg tracksOf) pkg).chordListReads = _
      rw [hacl, hecl, hframe.2]

/-- C10 witness: the package with non-empty style, chord-list and image
sub-streams and a too-new score leaves the replayed style and chord list
and the registered image in place despite the `FileTooNew` result. -/
theorem C10_side_files_precede_witness :
    rSide.imageStore = imagesStep [] pkgSide false ∧
    ((rSide.dispatched = none ∨ rSide.dispatched = some .r400) →
      rSide.master.styleReads = (styleStep score0 pkgSide).styleReads ∧
      rSide.master.chordListReads =
        (chordListStep (styleStep score0 pkgSide) pkgSide).chordListReads) :=
  C10_side_files_precede score0 [] pkgSide idLegacy idLegacy idLegacy noTracks false false
    false rSide rfl (by decide)

end ScoreRW
